import Mathlib

/-!
Verification of the bulk-upscale batch pipeline (bulk_upscale.py): a shallow
embedding of the transform client (upscale_image), the batch worker
(process_all_images_worker) with its progress-event channel and cooperative
cancellation, and the start-action validation (start_processing).

External effects (image header reading, the upload call, the HTTP GET, and
filesystem writes) are modelled by an explicit environment of outcomes, and
the filesystem by an explicit state value threaded through the functions.
Python exceptions are modelled as the error arm of Except; the catch-all
handler of upscale_image is the match on that Except.
-/

/-- Bytes of a downloaded response body. -/
abbrev Bytes := List Nat

/-- The JSON-like body returned by the upload call: the two URL fields the
code consults. -/
structure UploadResult where
  secure_url : Option String
  url : Option String
deriving Repr, DecidableEq

/-- An HTTP GET response: status code and body. -/
structure HttpResp where
  status_code : Nat
  content : Bytes
deriving Repr, DecidableEq

/-- Outcomes of the external effects upscale_image performs, in program
order: reading the image size, the upload call (a function of the width it
is invoked with), the GET, creating the parent directory, opening the
output file for writing (which truncates it), and writing the body.
An error arm models the Python call raising, with the exception text. -/
structure Env where
  imageSize : Except String (Nat × Nat)
  upload : Int → Except String UploadResult
  httpGet : String → Nat → Except String HttpResp
  mkdirOk : Except String Unit
  openOk : Except String Unit
  writeOk : Except String Unit

/-- The filesystem: files (path to content) and the set of directories. -/
structure FS where
  files : List (String × Bytes)
  dirs : List String
deriving Repr, DecidableEq

/-- Create or overwrite the file at a path. -/
def FS.setFile (fs : FS) (p : String) (c : Bytes) : FS :=
  { fs with files := (p, c) :: fs.files.filter (fun e => e.1 ≠ p) }

/-- The content at a path, if a file exists there. -/
def FS.lookupFile (fs : FS) (p : String) : Option Bytes :=
  (fs.files.find? (fun e => e.1 = p)).map (fun e => e.2)

/-- Record a directory as created (mkdir with parents, exist_ok). -/
def FS.addDir (fs : FS) (d : String) : FS :=
  { fs with dirs := d :: fs.dirs }

/-- Python int() applied to a real value: truncation toward zero. -/
def pyInt (q : ℚ) : Int :=
  if 0 ≤ q then ⌊q⌋ else ⌈q⌉

/-- The width the code computes and passes to the transform request:
max(1, int(orig_w * scale_factor)). -/
def target_width (orig_w : Nat) (scale_factor : ℚ) : Int :=
  max 1 (pyInt ((orig_w : ℚ) * scale_factor))

/-- Python truthiness of an optional string: present and non-empty. -/
def truthy : Option String → Bool
  | none => false
  | some s => !(s == "")

/-- The URL the code extracts: result.get("secure_url") or result.get("url"),
with Python falsy-string semantics, then the if-not-url check. -/
def resultUrl (r : UploadResult) : Option String :=
  let u := if truthy r.secure_url then r.secure_url else r.url
  if truthy u then u else none

/-- Parent directory of a path, as Path(p).parent renders it. -/
def parentOf (p : String) : String :=
  let parts := p.splitOn "/"
  if parts.length ≤ 1 then "." else String.intercalate "/" parts.dropLast

/-- The body of upscale_image inside its try block: each external call
either raises (error arm, carrying the filesystem as mutated so far) or
returns; normal returns are the ok arm carrying the (Bool, message) pair. -/
def upscaleBody (env : Env) (image_path output_path : String) (scale_factor : ℚ)
    (timeout : Nat) (fs : FS) : Except (String × FS) ((Bool × String) × FS) :=
  match env.imageSize with
  | .error e => .error (e, fs)
  | .ok (orig_w, _orig_h) =>
    match env.upload (target_width orig_w scale_factor) with
    | .error e => .error (e, fs)
    | .ok result =>
      match resultUrl result with
      | none => .ok ((false, "Cloudinary did not return a URL"), fs)
      | some url =>
        match env.httpGet url timeout with
        | .error e => .error (e, fs)
        | .ok response =>
          if response.status_code = 200 then
            match env.mkdirOk with
            | .error e => .error (e, fs)
            | .ok _ =>
              match env.openOk with
              | .error e => .error (e, FS.addDir fs (parentOf output_path))
              | .ok _ =>
                match env.writeOk with
                | .error e =>
                  .error (e, FS.setFile (FS.addDir fs (parentOf output_path)) output_path [])
                | .ok _ =>
                  .ok ((true, "OK"),
                    FS.setFile (FS.addDir fs (parentOf output_path)) output_path
                      response.content)
          else
            .ok ((false, "HTTP " ++ toString response.status_code), fs)

/-- upscale_image: the try body with its catch-all except clause, which
converts any raised fault into a (False, str(e)) return. -/
def upscale_image (env : Env) (image_path output_path : String) (scale_factor : ℚ)
    (timeout : Nat) (fs : FS) : (Bool × String) × FS :=
  match upscaleBody env image_path output_path scale_factor timeout fs with
  | .ok r => r
  | .error (e, fs') => ((false, e), fs')

/-- The (Bool, message) pair upscale_image returns; it does not depend on
the filesystem state, only on the environment and arguments. -/
def upscaleResult (env : Env) (image_path output_path : String) (scale_factor : ℚ)
    (timeout : Nat) : Bool × String :=
  (upscale_image env image_path output_path scale_factor timeout ⟨[], []⟩).1

/-- A directory entry as the worker sees it: name, extension, file flag. -/
structure Entry where
  name : String
  suffix : String
  is_file : Bool
deriving Repr, DecidableEq

/-- The allow-set literal of the code: six exact strings. -/
def supported_formats : List String :=
  [".jpg", ".jpeg", ".png", ".JPG", ".JPEG", ".PNG"]

/-- The worker's candidate filter: a regular file whose suffix is in the
allow-set (exact string membership, as the code tests it). -/
def isCandidate (e : Entry) : Bool :=
  e.is_file && supported_formats.contains e.suffix

/-- Progress events, tagged as the code tags the tuples it puts on the
queue; progress is the per-file Result event of the specification. -/
inductive Event where
  | total (n : Nat)
  | status (text : String)
  | progress (idx : Nat) (success : Bool) (detail : String)
  | stopped (reason : String)
  | done (successful : Nat) (total_count : Nat)
deriving Repr, DecidableEq

/-- The status line pushed before a file is processed. -/
def statusText (idx total : Nat) (name : String) : String :=
  "[" ++ toString idx ++ "/" ++ toString total ++ "] " ++ name

/-- The progress event pushed after a file is processed: on success the
name, on failure the name with the failure message appended. -/
def resultEvent (idx : Nat) (name : String) (r : Bool × String) : Event :=
  if r.1 then Event.progress idx true name
  else Event.progress idx false (name ++ " -> " ++ r.2)

/-- The worker's per-file loop: checks the stop flag at the top of each
iteration, pushes status, runs upscale_image, pushes progress, and counts
successes; on an observed stop it pushes stopped and breaks. Returns the
events pushed by the loop, the final success count and the filesystem. -/
def workerLoop (source_folder output_folder : String) (scale_factor : ℚ)
    (envOf : Nat → Env) (stop : Nat → Bool) (total : Nat) :
    List Entry → Nat → Nat → FS → List Event × Nat × FS
  | [], _idx, successful, fs => ([], successful, fs)
  | f :: rest, idx, successful, fs =>
    if stop idx then
      ([Event.stopped "Processing stopped by user"], successful, fs)
    else
      let p := upscale_image (envOf idx) (source_folder ++ "/" ++ f.name)
        (output_folder ++ "/u" ++ f.name) scale_factor 60 fs
      let successful1 := if p.1.1 then successful + 1 else successful
      let w := workerLoop source_folder output_folder scale_factor envOf stop total
        rest (idx + 1) successful1 p.2
      (Event.status (statusText idx total f.name) :: resultEvent idx f.name p.1 :: w.1,
       w.2)

/-- process_all_images_worker: creates the output directory, filters the
source listing to candidate files, pushes total, runs the loop, pushes
done. Returns the full event sequence and the final filesystem. -/
def process_all_images_worker (listing : List Entry)
    (source_folder output_folder : String) (scale_factor : ℚ)
    (envOf : Nat → Env) (stop : Nat → Bool) (fs : FS) : List Event × FS :=
  let fs0 := FS.addDir fs output_folder
  let image_files := listing.filter isCandidate
  let total := image_files.length
  let w := workerLoop source_folder output_folder scale_factor envOf stop total
    image_files 1 0 fs0
  (Event.total total :: (w.1 ++ [Event.done w.2.1 total]), w.2.2)

/-- Python str.strip() with no argument: the string with leading and
trailing whitespace removed, stated on the character list. -/
def pyStrip (s : String) : String :=
  ⟨((s.data.dropWhile Char.isWhitespace).reverse.dropWhile Char.isWhitespace).reverse⟩

/-- The start form's inputs: the five entry strings plus the save-secret
checkbox. -/
structure StartInputs where
  cloud_name : String
  api_key : String
  api_secret : String
  source : String
  output : String
  scale : String
  save_secret : Bool
deriving Repr, DecidableEq

/-- The shell's external queries: directory existence and float parsing. -/
structure GuiEnv where
  isdir : String → Bool
  parseFloat : String → Option ℚ

/-- The credential record saved to config and passed to the client. -/
structure ConfigRec where
  cloud_name : String
  api_key : String
  api_secret : String
deriving Repr, DecidableEq

/-- The arguments handed to the worker thread on a successful start. -/
structure WorkerStart where
  source : String
  output : String
  scale_f : ℚ
deriving Repr, DecidableEq

/-- Outcome of the start action: a synchronous error dialog with no side
effects, or a started job carrying the saved config, the runtime config and
the worker arguments. -/
inductive StartOutcome where
  | rejected (title msg : String)
  | started (saved : ConfigRec) (runtime : ConfigRec) (w : WorkerStart)
deriving Repr, DecidableEq

/-- start_processing: reads and strips the entries, validates name and key,
the source directory, the output entry and the scale factor, and only then
saves the config and spawns the worker. -/
def start_processing (g : GuiEnv) (inp : StartInputs) : StartOutcome :=
  let cloud_name := pyStrip inp.cloud_name
  let api_key := pyStrip inp.api_key
  let api_secret := pyStrip inp.api_secret
  let source := pyStrip inp.source
  let output := pyStrip inp.output
  let scale := pyStrip inp.scale
  if cloud_name = "" ∨ api_key = "" then
    StartOutcome.rejected "Ошибка" "Введите Cloud Name и API Key"
  else if source = "" ∨ g.isdir source = false then
    StartOutcome.rejected "Ошибка" "Выберите существующую папку с фото"
  else if output = "" then
    StartOutcome.rejected "Ошибка" "Выберите папку для сохранения"
  else
    match g.parseFloat scale with
    | none =>
      StartOutcome.rejected "Ошибка"
        "Неверный множитель масштаба. Используйте положительное число, например 2.0"
    | some scale_f =>
      if scale_f ≤ 0 then
        StartOutcome.rejected "Ошибка"
          "Неверный множитель масштаба. Используйте положительное число, например 2.0"
      else
        StartOutcome.started
          ⟨cloud_name, api_key, if inp.save_secret then api_secret else ""⟩
          ⟨cloud_name, api_key, api_secret⟩
          ⟨source, output, scale_f⟩

/-- upscale_image fails before the write step: the header read, the upload,
the URL extraction or the GET fails, or the GET status is not 200. -/
def preWriteFailure (env : Env) (scale_factor : ℚ) (timeout : Nat) : Bool :=
  match env.imageSize with
  | .error _ => true
  | .ok (orig_w, _) =>
    match env.upload (target_width orig_w scale_factor) with
    | .error _ => true
    | .ok result =>
      match resultUrl result with
      | none => true
      | some url =>
        match env.httpGet url timeout with
        | .error _ => true
        | .ok response => decide (response.status_code ≠ 200)

/-- Lower-casing of a string, character by character (the action of
String.toLower, stated on the character list). -/
def lowerStr (s : String) : String :=
  ⟨s.data.map Char.toLower⟩

/-- Candidate predicate as the specification words it: the extension
belongs to the allow-set jpg, jpeg, png compared case-insensitively. -/
def specCandidate (e : Entry) : Bool :=
  e.is_file && [".jpg", ".jpeg", ".png"].contains (lowerStr e.suffix)

/-- Target width as the specification words it: max(1, round(W*S)). -/
def specTargetWidth (orig_w : Nat) (scale_factor : ℚ) : Int :=
  max 1 (round ((orig_w : ℚ) * scale_factor))

/-- Is the event a Result (progress) event? -/
def Event.isResult : Event → Bool
  | Event.progress _ _ _ => true
  | _ => false

/-- Is the event a Status event? -/
def Event.isStatus : Event → Bool
  | Event.status _ => true
  | _ => false

/-- Is the event a Total event? -/
def Event.isTotal : Event → Bool
  | Event.total _ => true
  | _ => false

/-- Is the event a Done event? -/
def Event.isDone : Event → Bool
  | Event.done _ _ => true
  | _ => false

/-- Is the event a Stopped event? -/
def Event.isStopped : Event → Bool
  | Event.stopped _ => true
  | _ => false

/-- Number of Result events in a sequence. -/
def countResults (evs : List Event) : Nat := (evs.filter Event.isResult).length

/-- Number of Status events in a sequence. -/
def countStatus (evs : List Event) : Nat := (evs.filter Event.isStatus).length

/-- Number of Total events in a sequence. -/
def countTotal (evs : List Event) : Nat := (evs.filter Event.isTotal).length

/-- Number of Done events in a sequence. -/
def countDone (evs : List Event) : Nat := (evs.filter Event.isDone).length

/-- Number of Stopped events in a sequence. -/
def countStopped (evs : List Event) : Nat := (evs.filter Event.isStopped).length

/-- The indices carried by the Result events, in order of emission. -/
def resultIndices (evs : List Event) : List Nat :=
  evs.filterMap fun e =>
    match e with
    | Event.progress i _ _ => some i
    | _ => none

/-- Number of Result events carrying success = true. -/
def successCount (evs : List Event) : Nat :=
  (evs.filter fun e =>
    match e with
    | Event.progress _ true _ => true
    | _ => false).length

/-- The per-file attempts the loop would make from a file list starting at
a 1-based index: each attempt records the index, the file name and the
(Bool, message) pair upscale_image returns for it. -/
def attemptsFrom (source_folder output_folder : String) (scale_factor : ℚ)
    (envOf : Nat → Env) : List Entry → Nat → List (Nat × String × Bool × String)
  | [], _ => []
  | f :: rest, idx =>
    (idx, f.name,
      upscaleResult (envOf idx) (source_folder ++ "/" ++ f.name)
        (output_folder ++ "/u" ++ f.name) scale_factor 60)
      :: attemptsFrom source_folder output_folder scale_factor envOf rest (idx + 1)

/-- The two events one attempt pushes: its status line, then its result. -/
def attemptBlock (total : Nat) (a : Nat × String × Bool × String) : List Event :=
  [Event.status (statusText a.1 total a.2.1), resultEvent a.1 a.2.1 a.2.2]

/-- The event sequence of a run of attempts: the attempt blocks joined. -/
def blocksOf (total : Nat) (atts : List (Nat × String × Bool × String)) : List Event :=
  (atts.map (attemptBlock total)).flatten

/-- Number of successful attempts in an attempt list. -/
def attemptSuccesses (atts : List (Nat × String × Bool × String)) : Nat :=
  (atts.filter fun a => a.2.2.1).length

/-- The candidate files of a source listing. -/
def candidateFiles (listing : List Entry) : List Entry :=
  listing.filter isCandidate

/-- The number of candidate files, as carried by the Total event. -/
def candidateCount (listing : List Entry) : Nat :=
  (candidateFiles listing).length

/-- The event sequence a worker run pushes. -/
def workerEvents (listing : List Entry) (src out : String) (sc : ℚ)
    (envOf : Nat → Env) (stop : Nat → Bool) (fs : FS) : List Event :=
  (process_all_images_worker listing src out sc envOf stop fs).1

/-- An environment whose first external step raises: used to exercise the
failure paths at concrete inputs. -/
def envStub : Env :=
  ⟨Except.error "unreadable header", fun _ => Except.error "x",
    fun _ _ => Except.error "x", Except.error "x", Except.error "x",
    Except.error "x"⟩

/-- An environment in which every external step succeeds. -/
def envOkU : Env :=
  ⟨Except.ok (2, 1), fun _ => Except.ok ⟨some "u1", none⟩,
    fun _ _ => Except.ok ⟨200, [7, 8]⟩, Except.ok (), Except.ok (), Except.ok ()⟩

/-- A two-candidate source listing used at concrete inputs. -/
def demoListing : List Entry :=
  [⟨"a.jpg", ".jpg", true⟩, ⟨"b.png", ".png", true⟩]

theorem upscale_image_fst (env : Env) (ip op : String) (sf : ℚ) (t : Nat) (fs : FS) :
    (upscale_image env ip op sf t fs).1 = upscaleResult env ip op sf t := by
  unfold upscaleResult upscale_image upscaleBody
  rcases env.imageSize with e | ⟨w, h⟩
  · rfl
  · dsimp only
    rcases env.upload (target_width w sf) with e | r
    · rfl
    · dsimp only
      rcases resultUrl r with _ | url
      · rfl
      · dsimp only
        rcases env.httpGet url t with e | resp
        · rfl
        · dsimp only
          by_cases hst : resp.status_code = 200
          · rw [if_pos hst, if_pos hst]
            rcases env.mkdirOk with e | u
            · rfl
            · dsimp only
              rcases env.openOk with e | u
              · rfl
              · dsimp only
                rcases env.writeOk with e | u <;> rfl
          · rw [if_neg hst, if_neg hst]

theorem upscaleBody_cases (env : Env) (ip op : String) (sf : ℚ) (t : Nat) (fs : FS) :
    (∃ e fs', upscaleBody env ip op sf t fs = Except.error (e, fs')) ∨
    (∃ fs', upscaleBody env ip op sf t fs = Except.ok ((true, "OK"), fs')) ∨
    (∃ m fs', upscaleBody env ip op sf t fs = Except.ok ((false, m), fs')) := by
  unfold upscaleBody
  rcases env.imageSize with e | ⟨w, h⟩
  · exact Or.inl ⟨e, fs, rfl⟩
  · dsimp only
    rcases env.upload (target_width w sf) with e | r
    · exact Or.inl ⟨e, fs, rfl⟩
    · dsimp only
      rcases resultUrl r with _ | url
      · exact Or.inr (Or.inr ⟨_, fs, rfl⟩)
      · dsimp only
        rcases env.httpGet url t with e | resp
        · exact Or.inl ⟨e, fs, rfl⟩
        · dsimp only
          by_cases hst : resp.status_code = 200
          · rw [if_pos hst]
            rcases env.mkdirOk with e | u
            · exact Or.inl ⟨e, fs, rfl⟩
            · dsimp only
              rcases env.openOk with e | u
              · exact Or.inl ⟨e, _, rfl⟩
              · dsimp only
                rcases env.writeOk with e | u
                · exact Or.inl ⟨e, _, rfl⟩
                · exact Or.inr (Or.inl ⟨_, rfl⟩)
          · rw [if_neg hst]
            exact Or.inr (Or.inr ⟨_, fs, rfl⟩)

theorem blocksOf_nil (total : Nat) : blocksOf total [] = [] := rfl

theorem blocksOf_cons (total : Nat) (a : Nat × String × Bool × String)
    (l : List (Nat × String × Bool × String)) :
    blocksOf total (a :: l) = attemptBlock total a ++ blocksOf total l := by
  simp [blocksOf]

theorem workerLoop_no_stop (src out : String) (sc : ℚ) (envOf : Nat → Env)
    (stop : Nat → Bool) (total : Nat) (files : List Entry) :
    ∀ (idx successful : Nat) (fs : FS),
      (∀ j, idx ≤ j → j < idx + files.length → stop j = false) →
      (workerLoop src out sc envOf stop total files idx successful fs).1
          = blocksOf total (attemptsFrom src out sc envOf files idx) ∧
      (workerLoop src out sc envOf stop total files idx successful fs).2.1
          = successful + attemptSuccesses (attemptsFrom src out sc envOf files idx) := by
  induction files with
  | nil =>
    intro idx successful fs _
    simp [workerLoop, attemptsFrom, blocksOf, attemptSuccesses]
  | cons f rest ih =>
    intro idx successful fs h
    simp only [List.length_cons] at h
    have h0 : stop idx = false := h idx le_rfl (by omega)
    have h' : ∀ j, idx + 1 ≤ j → j < idx + 1 + rest.length → stop j = false := by
      intro j h1 h2
      exact h j (by omega) (by omega)
    have hres := upscale_image_fst (envOf idx) (src ++ "/" ++ f.name)
      (out ++ "/u" ++ f.name) sc 60 fs
    obtain ⟨ih1, ih2⟩ := ih (idx + 1)
      (if (upscaleResult (envOf idx) (src ++ "/" ++ f.name)
          (out ++ "/u" ++ f.name) sc 60).1 then successful + 1 else successful)
      (upscale_image (envOf idx) (src ++ "/" ++ f.name)
          (out ++ "/u" ++ f.name) sc 60 fs).2 h'
    constructor
    · simp only [workerLoop, h0, Bool.false_eq_true, if_false, hres, ih1]
      simp [attemptsFrom, blocksOf_cons, attemptBlock]
    · simp only [workerLoop, h0, Bool.false_eq_true, if_false, hres, ih2]
      have hsucc : attemptSuccesses (attemptsFrom src out sc envOf (f :: rest) idx)
          = (if (upscaleResult (envOf idx) (src ++ "/" ++ f.name)
              (out ++ "/u" ++ f.name) sc 60).1 then 1 else 0)
            + attemptSuccesses (attemptsFrom src out sc envOf rest (idx + 1)) := by
        simp only [attemptsFrom, attemptSuccesses, List.filter_cons]
        by_cases hb : (upscaleResult (envOf idx) (src ++ "/" ++ f.name)
            (out ++ "/u" ++ f.name) sc 60).1
        · simp [hb]
          omega
        · simp [hb]
      rw [hsucc]
      by_cases hb : (upscaleResult (envOf idx) (src ++ "/" ++ f.name)
          (out ++ "/u" ++ f.name) sc 60).1
      · simp [hb]
        omega
      · simp [hb]

theorem workerLoop_stop (src out : String) (sc : ℚ) (envOf : Nat → Env)
    (stop : Nat → Bool) (total : Nat) (files : List Entry) :
    ∀ (idx successful : Nat) (fs : FS) (k : Nat),
      idx ≤ k → k < idx + files.length → stop k = true →
      (∀ j, idx ≤ j → j < k → stop j = false) →
      (workerLoop src out sc envOf stop total files idx successful fs).1
          = blocksOf total (attemptsFrom src out sc envOf (files.take (k - idx)) idx)
              ++ [Event.stopped "Processing stopped by user"] ∧
      (workerLoop src out sc envOf stop total files idx successful fs).2.1
          = successful
              + attemptSuccesses (attemptsFrom src out sc envOf (files.take (k - idx)) idx) := by
  induction files with
  | nil =>
    intro idx successful fs k h1 h2 _ _
    simp only [List.length_nil] at h2
    omega
  | cons f rest ih =>
    intro idx successful fs k h1 h2 h3 h4
    simp only [List.length_cons] at h2
    by_cases hk : k = idx
    · subst hk
      simp [workerLoop, h3, blocksOf, attemptsFrom, attemptSuccesses]
    · have hlt : idx < k := by omega
      have h0 : stop idx = false := h4 idx le_rfl hlt
      have htake : (f :: rest).take (k - idx) = f :: rest.take (k - (idx + 1)) := by
        have hs : k - idx = (k - (idx + 1)) + 1 := by omega
        rw [hs, List.take_succ_cons]
      have hres := upscale_image_fst (envOf idx) (src ++ "/" ++ f.name)
        (out ++ "/u" ++ f.name) sc 60 fs
      obtain ⟨ih1, ih2⟩ := ih (idx + 1)
        (if (upscaleResult (envOf idx) (src ++ "/" ++ f.name)
            (out ++ "/u" ++ f.name) sc 60).1 then successful + 1 else successful)
        (upscale_image (envOf idx) (src ++ "/" ++ f.name)
            (out ++ "/u" ++ f.name) sc 60 fs).2 k (by omega) (by omega) h3
        (fun j hj1 hj2 => h4 j (by omega) hj2)
      constructor
      · simp only [workerLoop, h0, Bool.false_eq_true, if_false, hres, ih1, htake]
        simp [attemptsFrom, blocksOf_cons, attemptBlock]
      · simp only [workerLoop, h0, Bool.false_eq_true, if_false, hres, ih2, htake]
        have hsucc : attemptSuccesses (attemptsFrom src out sc envOf
              (f :: rest.take (k - (idx + 1))) idx)
            = (if (upscaleResult (envOf idx) (src ++ "/" ++ f.name)
                (out ++ "/u" ++ f.name) sc 60).1 then 1 else 0)
              + attemptSuccesses (attemptsFrom src out sc envOf
                  (rest.take (k - (idx + 1))) (idx + 1)) := by
          simp only [attemptsFrom, attemptSuccesses, List.filter_cons]
          by_cases hb : (upscaleResult (envOf idx) (src ++ "/" ++ f.name)
              (out ++ "/u" ++ f.name) sc 60).1
          · simp [hb]
            omega
          · simp [hb]
        rw [hsucc]
        by_cases hb : (upscaleResult (envOf idx) (src ++ "/" ++ f.name)
            (out ++ "/u" ++ f.name) sc 60).1
        · simp [hb]
          omega
        · simp [hb]

theorem worker_run_no_stop (listing : List Entry) (src out : String) (sc : ℚ)
    (envOf : Nat → Env) (stop : Nat → Bool) (fs : FS)
    (h : ∀ j, 1 ≤ j → j ≤ candidateCount listing → stop j = false) :
    workerEvents listing src out sc envOf stop fs
      = Event.total (candidateCount listing)
          :: blocksOf (candidateCount listing)
               (attemptsFrom src out sc envOf (candidateFiles listing) 1)
          ++ [Event.done
                (attemptSuccesses (attemptsFrom src out sc envOf (candidateFiles listing) 1))
                (candidateCount listing)] := by
  obtain ⟨h1, h2⟩ := workerLoop_no_stop src out sc envOf stop (candidateCount listing)
    (candidateFiles listing) 1 0 (FS.addDir fs out)
    (fun j hj1 hj2 => h j hj1 (by unfold candidateCount; omega))
  unfold workerEvents process_all_images_worker
  simp only [candidateFiles, candidateCount, ] at h1 h2 ⊢
  simp only [h1, h2, Nat.zero_add]
  rfl

theorem worker_run_stop (listing : List Entry) (src out : String) (sc : ℚ)
    (envOf : Nat → Env) (stop : Nat → Bool) (fs : FS) (k : Nat)
    (hk1 : 1 ≤ k) (hk2 : k ≤ candidateCount listing) (hk3 : stop k = true)
    (hk4 : ∀ j, 1 ≤ j → j < k → stop j = false) :
    workerEvents listing src out sc envOf stop fs
      = Event.total (candidateCount listing)
          :: blocksOf (candidateCount listing)
               (attemptsFrom src out sc envOf ((candidateFiles listing).take (k - 1)) 1)
          ++ [Event.stopped "Processing stopped by user",
              Event.done
                (attemptSuccesses
                  (attemptsFrom src out sc envOf ((candidateFiles listing).take (k - 1)) 1))
                (candidateCount listing)] := by
  obtain ⟨h1, h2⟩ := workerLoop_stop src out sc envOf stop (candidateCount listing)
    (candidateFiles listing) 1 0 (FS.addDir fs out) k hk1
    (by unfold candidateCount at hk2; omega) hk3 hk4
  unfold workerEvents process_all_images_worker
  simp only [candidateFiles, candidateCount, ] at h1 h2 ⊢
  simp only [h1, h2, Nat.zero_add, List.append_assoc, List.singleton_append,
    List.cons_append, List.nil_append]

theorem attemptsFrom_length (src out : String) (sc : ℚ) (envOf : Nat → Env) :
    ∀ (files : List Entry) (idx : Nat),
      (attemptsFrom src out sc envOf files idx).length = files.length := by
  intro files
  induction files with
  | nil => intro idx; rfl
  | cons f rest ih => intro idx; simp [attemptsFrom, ih]

theorem attemptsFrom_map_fst (src out : String) (sc : ℚ) (envOf : Nat → Env) :
    ∀ (files : List Entry) (idx : Nat),
      (attemptsFrom src out sc envOf files idx).map (fun a => a.1)
        = List.range' idx files.length := by
  intro files
  induction files with
  | nil => intro idx; rfl
  | cons f rest ih =>
    intro idx
    simp [attemptsFrom, List.range'_succ, ih]

theorem resultIndices_blocksOf (total : Nat) (atts : List (Nat × String × Bool × String)) :
    resultIndices (blocksOf total atts) = atts.map (fun a => a.1) := by
  induction atts with
  | nil => rfl
  | cons a l ih =>
    by_cases hb : a.2.2.1 <;>
      simp only [blocksOf_cons, attemptBlock, resultEvent, hb, if_true, if_false,
        Bool.false_eq_true, resultIndices, List.filterMap_append, List.filterMap_cons,
        List.filterMap_nil, List.map_cons] at ih ⊢ <;>
      simp_all

theorem countResults_blocksOf (total : Nat) (atts : List (Nat × String × Bool × String)) :
    countResults (blocksOf total atts) = atts.length := by
  induction atts with
  | nil => rfl
  | cons a l ih =>
    by_cases hb : a.2.2.1 <;>
      simp only [blocksOf_cons, attemptBlock, resultEvent, hb, if_true, if_false,
        Bool.false_eq_true, countResults, List.filter_append, List.filter_cons,
        List.filter_nil, Event.isResult, Event.isStatus, List.length_append,
        List.length_cons, List.length_nil] at ih ⊢ <;>
      simp_all <;> omega

theorem countStatus_blocksOf (total : Nat) (atts : List (Nat × String × Bool × String)) :
    countStatus (blocksOf total atts) = atts.length := by
  induction atts with
  | nil => rfl
  | cons a l ih =>
    by_cases hb : a.2.2.1 <;>
      simp only [blocksOf_cons, attemptBlock, resultEvent, hb, if_true, if_false,
        Bool.false_eq_true, countStatus, List.filter_append, List.filter_cons,
        List.filter_nil, Event.isStatus, List.length_append, List.length_cons,
        List.length_nil] at ih ⊢ <;>
      simp_all <;> omega

theorem countTotal_blocksOf (total : Nat) (atts : List (Nat × String × Bool × String)) :
    countTotal (blocksOf total atts) = 0 := by
  induction atts with
  | nil => rfl
  | cons a l ih =>
    by_cases hb : a.2.2.1 <;>
      simp only [blocksOf_cons, attemptBlock, resultEvent, hb, if_true, if_false,
        Bool.false_eq_true, countTotal, List.filter_append, List.filter_cons,
        List.filter_nil, Event.isTotal, List.length_append] at ih ⊢ <;>
      simp_all

theorem countDone_blocksOf (total : Nat) (atts : List (Nat × String × Bool × String)) :
    countDone (blocksOf total atts) = 0 := by
  induction atts with
  | nil => rfl
  | cons a l ih =>
    by_cases hb : a.2.2.1 <;>
      simp only [blocksOf_cons, attemptBlock, resultEvent, hb, if_true, if_false,
        Bool.false_eq_true, countDone, List.filter_append, List.filter_cons,
        List.filter_nil, Event.isDone, List.length_append] at ih ⊢ <;>
      simp_all

theorem countStopped_blocksOf (total : Nat) (atts : List (Nat × String × Bool × String)) :
    countStopped (blocksOf total atts) = 0 := by
  induction atts with
  | nil => rfl
  | cons a l ih =>
    by_cases hb : a.2.2.1 <;>
      simp only [blocksOf_cons, attemptBlock, resultEvent, hb, if_true, if_false,
        Bool.false_eq_true, countStopped, List.filter_append, List.filter_cons,
        List.filter_nil, Event.isStopped, List.length_append] at ih ⊢ <;>
      simp_all

theorem successCount_blocksOf (total : Nat) (atts : List (Nat × String × Bool × String)) :
    successCount (blocksOf total atts) = attemptSuccesses atts := by
  induction atts with
  | nil => rfl
  | cons a l ih =>
    by_cases hb : a.2.2.1 <;>
      simp only [blocksOf_cons, attemptBlock, resultEvent, hb, if_true, if_false,
        Bool.false_eq_true, successCount, attemptSuccesses, List.filter_append,
        List.filter_cons, List.filter_nil, List.length_append, List.length_cons] at ih ⊢ <;>
      simp_all <;> omega

theorem countTotal_append (l1 l2 : List Event) :
    countTotal (l1 ++ l2) = countTotal l1 + countTotal l2 := by
  simp [countTotal, List.filter_append]

theorem countDone_append (l1 l2 : List Event) :
    countDone (l1 ++ l2) = countDone l1 + countDone l2 := by
  simp [countDone, List.filter_append]

theorem countStopped_append (l1 l2 : List Event) :
    countStopped (l1 ++ l2) = countStopped l1 + countStopped l2 := by
  simp [countStopped, List.filter_append]

theorem countResults_append (l1 l2 : List Event) :
    countResults (l1 ++ l2) = countResults l1 + countResults l2 := by
  simp [countResults, List.filter_append]

theorem countStatus_append (l1 l2 : List Event) :
    countStatus (l1 ++ l2) = countStatus l1 + countStatus l2 := by
  simp [countStatus, List.filter_append]

theorem successCount_append (l1 l2 : List Event) :
    successCount (l1 ++ l2) = successCount l1 + successCount l2 := by
  simp [successCount, List.filter_append]

theorem resultIndices_append (l1 l2 : List Event) :
    resultIndices (l1 ++ l2) = resultIndices l1 ++ resultIndices l2 := by
  simp [resultIndices, List.filterMap_append]

theorem countTotal_cons (e : Event) (l : List Event) :
    countTotal (e :: l) = (if e.isTotal then 1 else 0) + countTotal l := by
  by_cases h : e.isTotal <;> simp [countTotal, List.filter_cons, h] <;> omega

theorem countDone_cons (e : Event) (l : List Event) :
    countDone (e :: l) = (if e.isDone then 1 else 0) + countDone l := by
  by_cases h : e.isDone <;> simp [countDone, List.filter_cons, h] <;> omega

theorem countStopped_cons (e : Event) (l : List Event) :
    countStopped (e :: l) = (if e.isStopped then 1 else 0) + countStopped l := by
  by_cases h : e.isStopped <;> simp [countStopped, List.filter_cons, h] <;> omega

theorem countResults_cons (e : Event) (l : List Event) :
    countResults (e :: l) = (if e.isResult then 1 else 0) + countResults l := by
  by_cases h : e.isResult <;> simp [countResults, List.filter_cons, h] <;> omega

theorem countStatus_cons (e : Event) (l : List Event) :
    countStatus (e :: l) = (if e.isStatus then 1 else 0) + countStatus l := by
  by_cases h : e.isStatus <;> simp [countStatus, List.filter_cons, h] <;> omega

/-- Claim C3: with N candidate files and the cancellation flag never set,
the worker pushes exactly one Total event carrying N first, then exactly N
Result events with indices 1..N in strictly increasing order, then exactly
one Done event carrying (successful, N) last, where successful is the
number of success Results; for N = 0 the whole sequence is Total 0
followed immediately by Done 0 0 with no Result events. -/
theorem worker_complete_run (listing : List Entry) (src out : String) (sc : ℚ)
    (envOf : Nat → Env) (stop : Nat → Bool) (fs : FS)
    (h : ∀ j, stop j = false) :
    countTotal (workerEvents listing src out sc envOf stop fs) = 1 ∧
    (workerEvents listing src out sc envOf stop fs).head?
      = some (Event.total (candidateCount listing)) ∧
    resultIndices (workerEvents listing src out sc envOf stop fs)
      = List.range' 1 (candidateCount listing) ∧
    countDone (workerEvents listing src out sc envOf stop fs) = 1 ∧
    countStopped (workerEvents listing src out sc envOf stop fs) = 0 ∧
    (workerEvents listing src out sc envOf stop fs).getLast?
      = some (Event.done
          (successCount (workerEvents listing src out sc envOf stop fs))
          (candidateCount listing)) ∧
    (candidateCount listing = 0 →
      workerEvents listing src out sc envOf stop fs
        = [Event.total 0, Event.done 0 0]) := by
  have hrw := worker_run_no_stop listing src out sc envOf stop fs (fun j _ _ => h j)
  rw [hrw]
  have hconsS : ∀ (n : Nat) (l : List Event),
      successCount (Event.total n :: l) = successCount l := by
    intro n l
    simp [successCount, List.filter_cons]
  have hS : successCount
        ((Event.total (candidateCount listing)
          :: blocksOf (candidateCount listing)
               (attemptsFrom src out sc envOf (candidateFiles listing) 1))
          ++ [Event.done
                (attemptSuccesses (attemptsFrom src out sc envOf (candidateFiles listing) 1))
                (candidateCount listing)])
      = attemptSuccesses (attemptsFrom src out sc envOf (candidateFiles listing) 1) := by
    rw [successCount_append, hconsS, successCount_blocksOf]
    simp [successCount]
  refine ⟨?_, rfl, ?_, ?_, ?_, ?_, ?_⟩
  · rw [countTotal_append, countTotal_cons, countTotal_blocksOf]
    simp [countTotal, Event.isTotal]
  · have h1 : resultIndices
        (Event.total (candidateCount listing)
          :: blocksOf (candidateCount listing)
               (attemptsFrom src out sc envOf (candidateFiles listing) 1))
        = resultIndices (blocksOf (candidateCount listing)
            (attemptsFrom src out sc envOf (candidateFiles listing) 1)) := by
      simp [resultIndices, List.filterMap_cons]
    rw [resultIndices_append, h1, resultIndices_blocksOf, attemptsFrom_map_fst]
    simp [resultIndices, candidateCount, candidateFiles]
  · rw [countDone_append, countDone_cons, countDone_blocksOf]
    simp [countDone, Event.isDone]
  · rw [countStopped_append, countStopped_cons, countStopped_blocksOf]
    simp [countStopped, Event.isStopped]
  · rw [List.getLast?_concat, hS]
  · intro h0
    have hf : candidateFiles listing = [] := List.length_eq_zero.mp h0
    simp [hf, h0, attemptsFrom, blocksOf, attemptSuccesses]

theorem successCount_total_cons (n : Nat) (l : List Event) :
    successCount (Event.total n :: l) = successCount l := by
  simp [successCount, List.filter_cons]

/-- Claim C4: if the cancellation flag is first observed set at file k
(1 ≤ k ≤ N), the worker emits exactly k-1 Result events (hence at most
k-1), exactly one Stopped event and exactly one Done event; Done is last,
carries total = N (the original candidate count) and successful = the
number of success Results emitted before the stop, and after Stopped
nothing follows except that single Done. -/
theorem worker_cancelled_run (listing : List Entry) (src out : String) (sc : ℚ)
    (envOf : Nat → Env) (stop : Nat → Bool) (fs : FS) (k : Nat)
    (hk1 : 1 ≤ k) (hk2 : k ≤ candidateCount listing) (hk3 : stop k = true)
    (hk4 : ∀ j, 1 ≤ j → j < k → stop j = false) :
    countResults (workerEvents listing src out sc envOf stop fs) = k - 1 ∧
    countStopped (workerEvents listing src out sc envOf stop fs) = 1 ∧
    countDone (workerEvents listing src out sc envOf stop fs) = 1 ∧
    (workerEvents listing src out sc envOf stop fs).getLast?
      = some (Event.done
          (successCount (workerEvents listing src out sc envOf stop fs))
          (candidateCount listing)) ∧
    ∃ pre, workerEvents listing src out sc envOf stop fs
        = pre ++ [Event.stopped "Processing stopped by user",
            Event.done
              (successCount (workerEvents listing src out sc envOf stop fs))
              (candidateCount listing)] ∧
      countStopped pre = 0 := by
  have hrw := worker_run_stop listing src out sc envOf stop fs k hk1 hk2 hk3 hk4
  rw [hrw]
  have hS : successCount
        ((Event.total (candidateCount listing)
          :: blocksOf (candidateCount listing)
               (attemptsFrom src out sc envOf ((candidateFiles listing).take (k - 1)) 1))
          ++ [Event.stopped "Processing stopped by user",
              Event.done
                (attemptSuccesses
                  (attemptsFrom src out sc envOf ((candidateFiles listing).take (k - 1)) 1))
                (candidateCount listing)])
      = attemptSuccesses
          (attemptsFrom src out sc envOf ((candidateFiles listing).take (k - 1)) 1) := by
    rw [successCount_append, successCount_total_cons, successCount_blocksOf]
    simp [successCount]
  rw [hS]
  refine ⟨?_, ?_, ?_, ?_, ?_⟩
  · rw [countResults_append, countResults_cons, countResults_blocksOf, attemptsFrom_length]
    have hlen : ((candidateFiles listing).take (k - 1)).length = k - 1 := by
      rw [List.length_take]
      unfold candidateCount at hk2
      omega
    rw [hlen]
    simp [countResults, Event.isResult]
  · rw [countStopped_append, countStopped_cons, countStopped_blocksOf]
    simp [countStopped, Event.isStopped]
  · rw [countDone_append, countDone_cons, countDone_blocksOf]
    simp [countDone, Event.isDone]
  · rw [show ((Event.total (candidateCount listing)
          :: blocksOf (candidateCount listing)
               (attemptsFrom src out sc envOf ((candidateFiles listing).take (k - 1)) 1))
          ++ [Event.stopped "Processing stopped by user",
              Event.done
                (attemptSuccesses
                  (attemptsFrom src out sc envOf ((candidateFiles listing).take (k - 1)) 1))
                (candidateCount listing)])
        = ((Event.total (candidateCount listing)
            :: blocksOf (candidateCount listing)
                 (attemptsFrom src out sc envOf ((candidateFiles listing).take (k - 1)) 1))
            ++ [Event.stopped "Processing stopped by user"])
          ++ [Event.done
                (attemptSuccesses
                  (attemptsFrom src out sc envOf ((candidateFiles listing).take (k - 1)) 1))
                (candidateCount listing)] from by simp]
    exact List.getLast?_concat _
  · refine ⟨Event.total (candidateCount listing)
        :: blocksOf (candidateCount listing)
             (attemptsFrom src out sc envOf ((candidateFiles listing).take (k - 1)) 1),
      rfl, ?_⟩
    rw [countStopped_cons, countStopped_blocksOf]
    simp [Event.isStopped]

theorem closedForm_no_stop_facts (N : Nat) (atts : List (Nat × String × Bool × String)) :
    countTotal ((Event.total N :: blocksOf N atts)
        ++ [Event.done (attemptSuccesses atts) N]) = 1 ∧
    countDone ((Event.total N :: blocksOf N atts)
        ++ [Event.done (attemptSuccesses atts) N]) = 1 ∧
    countStopped ((Event.total N :: blocksOf N atts)
        ++ [Event.done (attemptSuccesses atts) N]) = 0 ∧
    countResults ((Event.total N :: blocksOf N atts)
        ++ [Event.done (attemptSuccesses atts) N]) = atts.length ∧
    countStatus ((Event.total N :: blocksOf N atts)
        ++ [Event.done (attemptSuccesses atts) N]) = atts.length ∧
    successCount ((Event.total N :: blocksOf N atts)
        ++ [Event.done (attemptSuccesses atts) N]) = attemptSuccesses atts ∧
    resultIndices ((Event.total N :: blocksOf N atts)
        ++ [Event.done (attemptSuccesses atts) N]) = atts.map (fun a => a.1) ∧
    ((Event.total N :: blocksOf N atts)
        ++ [Event.done (attemptSuccesses atts) N]).getLast?
      = some (Event.done (attemptSuccesses atts) N) := by
  refine ⟨?_, ?_, ?_, ?_, ?_, ?_, ?_, List.getLast?_concat _⟩
  · rw [countTotal_append, countTotal_cons, countTotal_blocksOf]
    simp [countTotal, Event.isTotal]
  · rw [countDone_append, countDone_cons, countDone_blocksOf]
    simp [countDone, Event.isDone]
  · rw [countStopped_append, countStopped_cons, countStopped_blocksOf]
    simp [countStopped, Event.isStopped]
  · rw [countResults_append, countResults_cons, countResults_blocksOf]
    simp [countResults, Event.isResult]
  · rw [countStatus_append, countStatus_cons, countStatus_blocksOf]
    simp [countStatus, Event.isStatus]
  · rw [successCount_append, successCount_total_cons, successCount_blocksOf]
    simp [successCount]
  · rw [resultIndices_append]
    have h1 : resultIndices (Event.total N :: blocksOf N atts)
        = resultIndices (blocksOf N atts) := by
      simp [resultIndices, List.filterMap_cons]
    rw [h1, resultIndices_blocksOf]
    simp [resultIndices]

theorem closedForm_stop_facts (N : Nat) (reason : String)
    (atts : List (Nat × String × Bool × String)) :
    countTotal ((Event.total N :: blocksOf N atts)
        ++ [Event.stopped reason, Event.done (attemptSuccesses atts) N]) = 1 ∧
    countDone ((Event.total N :: blocksOf N atts)
        ++ [Event.stopped reason, Event.done (attemptSuccesses atts) N]) = 1 ∧
    countStopped ((Event.total N :: blocksOf N atts)
        ++ [Event.stopped reason, Event.done (attemptSuccesses atts) N]) = 1 ∧
    countResults ((Event.total N :: blocksOf N atts)
        ++ [Event.stopped reason, Event.done (attemptSuccesses atts) N]) = atts.length ∧
    countStatus ((Event.total N :: blocksOf N atts)
        ++ [Event.stopped reason, Event.done (attemptSuccesses atts) N]) = atts.length ∧
    successCount ((Event.total N :: blocksOf N atts)
        ++ [Event.stopped reason, Event.done (attemptSuccesses atts) N])
      = attemptSuccesses atts ∧
    resultIndices ((Event.total N :: blocksOf N atts)
        ++ [Event.stopped reason, Event.done (attemptSuccesses atts) N])
      = atts.map (fun a => a.1) ∧
    ((Event.total N :: blocksOf N atts)
        ++ [Event.stopped reason, Event.done (attemptSuccesses atts) N]).getLast?
      = some (Event.done (attemptSuccesses atts) N) ∧
    countStopped (Event.total N :: blocksOf N atts) = 0 := by
  refine ⟨?_, ?_, ?_, ?_, ?_, ?_, ?_, ?_, ?_⟩
  · rw [countTotal_append, countTotal_cons, countTotal_blocksOf]
    simp [countTotal, Event.isTotal]
  · rw [countDone_append, countDone_cons, countDone_blocksOf]
    simp [countDone, Event.isDone]
  · rw [countStopped_append, countStopped_cons, countStopped_blocksOf]
    simp [countStopped, Event.isStopped]
  · rw [countResults_append, countResults_cons, countResults_blocksOf]
    simp [countResults, Event.isResult]
  · rw [countStatus_append, countStatus_cons, countStatus_blocksOf]
    simp [countStatus, Event.isStatus]
  · rw [successCount_append, successCount_total_cons, successCount_blocksOf]
    simp [successCount]
  · rw [resultIndices_append]
    have h1 : resultIndices (Event.total N :: blocksOf N atts)
        = resultIndices (blocksOf N atts) := by
      simp [resultIndices, List.filterMap_cons]
    rw [h1, resultIndices_blocksOf]
    simp [resultIndices]
  · rw [show (Event.total N :: blocksOf N atts)
          ++ [Event.stopped reason, Event.done (attemptSuccesses atts) N]
        = ((Event.total N :: blocksOf N atts) ++ [Event.stopped reason])
          ++ [Event.done (attemptSuccesses atts) N] from by simp]
    exact List.getLast?_concat _
  · rw [countStopped_cons, countStopped_blocksOf]
    simp [Event.isStopped]

theorem stop_dichotomy (stop : Nat → Bool) (a : Nat) :
    ∀ n : Nat, (∀ j, a ≤ j → j < a + n → stop j = false) ∨
      (∃ k, a ≤ k ∧ k < a + n ∧ stop k = true ∧
        ∀ j, a ≤ j → j < k → stop j = false) := by
  intro n
  induction n with
  | zero => exact Or.inl (fun j h1 h2 => by omega)
  | succ n ih =>
    rcases ih with hall | ⟨k, hk1, hk2, hk3, hk4⟩
    · by_cases hs : stop (a + n) = true
      · exact Or.inr ⟨a + n, by omega, by omega, hs,
          fun j h1 h2 => hall j h1 (by omega)⟩
      · left
        intro j h1 h2
        by_cases hj : j = a + n
        · subst hj
          cases hsj : stop (a + n)
          · rfl
          · exact absurd hsj hs
        · exact hall j h1 (by omega)
    · exact Or.inr ⟨k, hk1, by omega, hk3, hk4⟩

/-- Claim C8: in every run, cancelled or not, the single Total event is
first and so precedes all Result events; Result indices form a 1-based
strictly increasing gapless sequence over the attempted files; exactly one
Done event is pushed and it is the last event; and if Stopped occurs the
number of Result events is at most the candidate count and nothing follows
Stopped except Done. -/
theorem worker_channel_invariants (listing : List Entry) (src out : String) (sc : ℚ)
    (envOf : Nat → Env) (stop : Nat → Bool) (fs : FS) :
    countTotal (workerEvents listing src out sc envOf stop fs) = 1 ∧
    (workerEvents listing src out sc envOf stop fs).head?
      = some (Event.total (candidateCount listing)) ∧
    (∃ m, m ≤ candidateCount listing ∧
      resultIndices (workerEvents listing src out sc envOf stop fs)
        = List.range' 1 m) ∧
    countDone (workerEvents listing src out sc envOf stop fs) = 1 ∧
    (∃ S, (workerEvents listing src out sc envOf stop fs).getLast?
        = some (Event.done S (candidateCount listing))) ∧
    countStopped (workerEvents listing src out sc envOf stop fs) ≤ 1 ∧
    (countStopped (workerEvents listing src out sc envOf stop fs) = 1 →
      countResults (workerEvents listing src out sc envOf stop fs)
          ≤ candidateCount listing ∧
      ∃ pre r S, workerEvents listing src out sc envOf stop fs
          = pre ++ [Event.stopped r, Event.done S (candidateCount listing)] ∧
        countStopped pre = 0) := by
  rcases stop_dichotomy stop 1 (candidateCount listing) with hall | ⟨k, hk1, hk2, hk3, hk4⟩
  · have hrw := worker_run_no_stop listing src out sc envOf stop fs
      (fun j h1 h2 => hall j h1 (by omega))
    rw [hrw]
    obtain ⟨f1, f2, f3, f4, f5, f6, f7, f8⟩ :=
      closedForm_no_stop_facts (candidateCount listing)
        (attemptsFrom src out sc envOf (candidateFiles listing) 1)
    refine ⟨f1, rfl, ⟨candidateCount listing, le_rfl, ?_⟩, f2, ⟨_, f8⟩, ?_, ?_⟩
    · rw [f7, attemptsFrom_map_fst]
      rfl
    · rw [f3]
      omega
    · intro hc
      rw [f3] at hc
      omega
  · have hk2' : k ≤ candidateCount listing := by omega
    have hrw := worker_run_stop listing src out sc envOf stop fs k hk1 hk2' hk3 hk4
    rw [hrw]
    obtain ⟨f1, f2, f3, f4, f5, f6, f7, f8, f9⟩ :=
      closedForm_stop_facts (candidateCount listing) "Processing stopped by user"
        (attemptsFrom src out sc envOf ((candidateFiles listing).take (k - 1)) 1)
    refine ⟨f1, rfl, ⟨((candidateFiles listing).take (k - 1)).length, ?_, ?_⟩,
      f2, ⟨_, f8⟩, ?_, ?_⟩
    · rw [List.length_take]
      simp [candidateCount]
    · rw [f7, attemptsFrom_map_fst]
    · rw [f3]
    · intro _
      constructor
      · rw [f4, attemptsFrom_length, List.length_take]
        simp [candidateCount]
      · exact ⟨Event.total (candidateCount listing)
            :: blocksOf (candidateCount listing)
                 (attemptsFrom src out sc envOf ((candidateFiles listing).take (k - 1)) 1),
          "Processing stopped by user", _, rfl, f9⟩

/-- Claim C9: in every run the number of Status events equals the number of
Result events, and the event sequence decomposes as the Total event
followed by one two-event block per attempted file, a Status event carrying
the file's 1-based position and name immediately followed by that file's
Result event, followed by a tail holding no Status and no Result events; in
particular no Status event is pushed for the file at which cancellation is
observed. -/
theorem worker_status_result_pairing (listing : List Entry) (src out : String) (sc : ℚ)
    (envOf : Nat → Env) (stop : Nat → Bool) (fs : FS) :
    countStatus (workerEvents listing src out sc envOf stop fs)
      = countResults (workerEvents listing src out sc envOf stop fs) ∧
    ∃ tail, workerEvents listing src out sc envOf stop fs
        = Event.total (candidateCount listing)
            :: blocksOf (candidateCount listing)
                 (attemptsFrom src out sc envOf
                   ((candidateFiles listing).take
                     (countResults (workerEvents listing src out sc envOf stop fs))) 1)
            ++ tail ∧
      countStatus tail = 0 ∧ countResults tail = 0 := by
  rcases stop_dichotomy stop 1 (candidateCount listing) with hall | ⟨k, hk1, hk2, hk3, hk4⟩
  · have hrw := worker_run_no_stop listing src out sc envOf stop fs
      (fun j h1 h2 => hall j h1 (by omega))
    rw [hrw]
    obtain ⟨f1, f2, f3, f4, f5, f6, f7, f8⟩ :=
      closedForm_no_stop_facts (candidateCount listing)
        (attemptsFrom src out sc envOf (candidateFiles listing) 1)
    refine ⟨by rw [f4, f5], ?_⟩
    rw [f4, attemptsFrom_length]
    refine ⟨[Event.done
        (attemptSuccesses (attemptsFrom src out sc envOf (candidateFiles listing) 1))
        (candidateCount listing)], ?_, by simp [countStatus, Event.isStatus], by simp [countResults, Event.isResult]⟩
    rw [List.take_length]
  · have hk2' : k ≤ candidateCount listing := by omega
    have hrw := worker_run_stop listing src out sc envOf stop fs k hk1 hk2' hk3 hk4
    rw [hrw]
    obtain ⟨f1, f2, f3, f4, f5, f6, f7, f8, f9⟩ :=
      closedForm_stop_facts (candidateCount listing) "Processing stopped by user"
        (attemptsFrom src out sc envOf ((candidateFiles listing).take (k - 1)) 1)
    refine ⟨by rw [f4, f5], ?_⟩
    rw [f4, attemptsFrom_length]
    have hlen : ((candidateFiles listing).take (k - 1)).length = k - 1 := by
      rw [List.length_take]
      unfold candidateCount at hk2'
      omega
    rw [hlen]
    refine ⟨[Event.stopped "Processing stopped by user",
        Event.done
          (attemptSuccesses
            (attemptsFrom src out sc envOf ((candidateFiles listing).take (k - 1)) 1))
          (candidateCount listing)], rfl, by simp [countStatus, Event.isStatus], by simp [countResults, Event.isResult]⟩

/-- Claim C5: upscale_image never lets a fault escape: whatever the
outcomes of the external steps, including raised faults at any point, it
returns a pair that is (true, OK) on combined success and (false, message)
otherwise, and every fault raised inside the body is converted by the
catch-all handler into a (false, message) return. -/
theorem upscale_image_never_raises (env : Env) (ip op : String) (sf : ℚ)
    (t : Nat) (fs : FS) :
    ((upscale_image env ip op sf t fs).1 = (true, "OK") ∨
      (upscale_image env ip op sf t fs).1.1 = false) ∧
    ∀ e fs', upscaleBody env ip op sf t fs = Except.error (e, fs') →
      upscale_image env ip op sf t fs = ((false, e), fs') := by
  constructor
  · rcases upscaleBody_cases env ip op sf t fs with ⟨e, fs', h⟩ | ⟨fs', h⟩ | ⟨m, fs', h⟩
    · right
      unfold upscale_image
      rw [h]
    · left
      unfold upscale_image
      rw [h]
    · right
      unfold upscale_image
      rw [h]
  · intro e fs' h
    unfold upscale_image
    rw [h]

/-- Claim C10: when upscale_image fails before the write step (unreadable
header, upload fault, missing URL, GET fault or non-200 status) it returns
(false, message) and the filesystem value is returned unchanged, so no file
at the output path is created, modified or deleted. -/
theorem upscale_preWrite_failure_frame (env : Env) (ip op : String) (sf : ℚ)
    (t : Nat) (fs : FS) (h : preWriteFailure env sf t = true) :
    ∃ m, upscale_image env ip op sf t fs = ((false, m), fs) := by
  unfold preWriteFailure at h
  unfold upscale_image upscaleBody
  rcases hE : env.imageSize with e | ⟨w, hh⟩ <;> simp only [hE] at h ⊢
  · exact ⟨e, rfl⟩
  · rcases hU : env.upload (target_width w sf) with e | r <;> simp only [hU] at h ⊢
    · exact ⟨e, rfl⟩
    · rcases hurl : resultUrl r with _ | url <;> simp only [hurl] at h ⊢
      · exact ⟨_, rfl⟩
      · rcases hG : env.httpGet url t with e | resp <;> simp only [hG] at h ⊢
        · exact ⟨e, rfl⟩
        · simp only [decide_eq_true_eq] at h
          rw [if_neg h]
          exact ⟨_, rfl⟩

/-- Claim C6 (amended): with the upload step succeeding and yielding a URL,
a fault during the GET or a non-success status leaves the filesystem value
unchanged (no file is created or modified at the destination), a
non-success status is reported as the message HTTP followed by the code,
and in the success path the destination's parent directory is recorded as
created whatever the open and write outcomes, with the full body written on
success. -/
theorem fetch_failure_contract (env : Env) (W H : Nat) (r : UploadResult)
    (url ip op : String) (sf : ℚ) (t : Nat) (fs : FS)
    (hsz : env.imageSize = Except.ok (W, H))
    (hU : env.upload (target_width W sf) = Except.ok r)
    (hurl : resultUrl r = some url) :
    (∀ e, env.httpGet url t = Except.error e →
      upscale_image env ip op sf t fs = ((false, e), fs)) ∧
    (∀ resp, env.httpGet url t = Except.ok resp → resp.status_code ≠ 200 →
      upscale_image env ip op sf t fs
        = ((false, "HTTP " ++ toString resp.status_code), fs)) ∧
    (∀ resp, env.httpGet url t = Except.ok resp → resp.status_code = 200 →
      env.mkdirOk = Except.ok () →
      parentOf op ∈ (upscale_image env ip op sf t fs).2.dirs ∧
      (env.openOk = Except.ok () → env.writeOk = Except.ok () →
        upscale_image env ip op sf t fs
          = ((true, "OK"),
             FS.setFile (FS.addDir fs (parentOf op)) op resp.content))) := by
  unfold upscale_image upscaleBody
  simp only [hsz, hU, hurl]
  refine ⟨?_, ?_, ?_⟩
  · intro e hG
    simp only [hG]
  · intro resp hG hne
    simp only [hG]
    rw [if_neg hne]
  · intro resp hG h200 hmk
    simp only [hG]
    rw [if_pos h200]
    simp only [hmk]
    rcases hO : env.openOk with e | u <;> simp only [hO]
    · refine ⟨by simp [FS.addDir], ?_⟩
      intro hOk
      simp at hOk
    · rcases hW : env.writeOk with e | u <;> simp only [hW]
      · refine ⟨by simp [FS.setFile, FS.addDir], ?_⟩
        intro _ hWk
        simp at hWk
      · refine ⟨by simp [FS.setFile, FS.addDir], ?_⟩
        intro _ _
        simp [FS.setFile, FS.addDir]

/-- Claim C2 (amended): an entry is enumerated as a candidate exactly when
it is a regular file whose suffix is one of the six exact strings of the
allow-set literal (the three lower-case and three upper-case spellings);
the Total event carries the number of such entries. -/
theorem candidate_iff_exact_suffix (listing : List Entry) (src out : String)
    (sc : ℚ) (envOf : Nat → Env) (stop : Nat → Bool) (fs : FS) :
    (workerEvents listing src out sc envOf stop fs).head?
      = some (Event.total (listing.filter isCandidate).length) ∧
    ∀ e : Entry, isCandidate e = true
      ↔ (e.is_file = true ∧ e.suffix ∈ supported_formats) := by
  constructor
  · rfl
  · intro e
    simp [isCandidate, Bool.and_eq_true, List.elem_iff]

/-- Claim C7 (amended): the start action is rejected, synchronously and
with no job side effects, exactly when the stripped cloud name or API key
is empty, the stripped source entry is empty or not an existing directory,
the stripped output entry is empty, or the scale entry does not parse or
parses to a non-positive number; the API secret and the existence of the
output directory are not validated. -/
theorem start_rejected_iff (g : GuiEnv) (inp : StartInputs) :
    (∃ t m, start_processing g inp = StartOutcome.rejected t m) ↔
      (pyStrip inp.cloud_name = "" ∨ pyStrip inp.api_key = "" ∨
       pyStrip inp.source = "" ∨ g.isdir (pyStrip inp.source) = false ∨
       pyStrip inp.output = "" ∨
       g.parseFloat (pyStrip inp.scale) = none ∨
       ∃ q, g.parseFloat (pyStrip inp.scale) = some q ∧ q ≤ 0) := by
  simp only [start_processing]
  by_cases h1 : pyStrip inp.cloud_name = "" ∨ pyStrip inp.api_key = ""
  · rw [if_pos h1]
    constructor
    · intro _
      tauto
    · intro _
      exact ⟨_, _, rfl⟩
  · rw [if_neg h1]
    by_cases h2 : pyStrip inp.source = "" ∨ g.isdir (pyStrip inp.source) = false
    · rw [if_pos h2]
      constructor
      · intro _
        tauto
      · intro _
        exact ⟨_, _, rfl⟩
    · rw [if_neg h2]
      by_cases h3 : pyStrip inp.output = ""
      · rw [if_pos h3]
        constructor
        · intro _
          tauto
        · intro _
          exact ⟨_, _, rfl⟩
      · rw [if_neg h3]
        rcases hP : g.parseFloat (pyStrip inp.scale) with _ | q
        · constructor
          · intro _
            tauto
          · intro _
            exact ⟨_, _, rfl⟩
        · dsimp only
          by_cases hq : q ≤ 0
          · rw [if_pos hq]
            constructor
            · intro _
              exact Or.inr (Or.inr (Or.inr (Or.inr (Or.inr (Or.inr ⟨q, rfl, hq⟩)))))
            · intro _
              exact ⟨_, _, rfl⟩
          · rw [if_neg hq]
            constructor
            · rintro ⟨tt, mm, hcon⟩
              cases hcon
            · rintro (hc | hc | hc | hc | hc | hc | ⟨q', hq', hle⟩)
              · exact absurd (Or.inl hc) h1
              · exact absurd (Or.inr hc) h1
              · exact absurd (Or.inl hc) h2
              · exact absurd (Or.inr hc) h2
              · exact absurd hc h3
              · simp_all
              · cases Option.some.inj hq'
                exact absurd hle hq

/-- Claim C1 (amended): for an image of width W and a positive scale
factor S, the width passed to the transform request is max(1, int(W*S)),
where int truncates toward zero — equal to max(1, floor(W*S)), not
max(1, round(W*S)); upscale_image consults the upload outcome only at that
width; the claim's two examples still hold: W=1000, S=2 gives 2000 and
W=3, S=1/10 gives 1. -/
theorem upload_width_truncates (env : Env) (u' : Int → Except String UploadResult)
    (W H : Nat) (ip op : String) (S : ℚ) (t : Nat) (fs : FS)
    (hsz : env.imageSize = Except.ok (W, H)) (hS : 0 < S)
    (hu : u' (max 1 ⌊(W : ℚ) * S⌋) = env.upload (max 1 ⌊(W : ℚ) * S⌋)) :
    upscale_image { env with upload := u' } ip op S t fs
      = upscale_image env ip op S t fs ∧
    target_width W S = max 1 ⌊(W : ℚ) * S⌋ ∧
    target_width 1000 2 = 2000 ∧
    target_width 3 (1/10) = 1 := by
  have htw : target_width W S = max 1 ⌊(W : ℚ) * S⌋ := by
    unfold target_width pyInt
    rw [if_pos (mul_nonneg (Nat.cast_nonneg W) hS.le)]
  refine ⟨?_, htw, by norm_num [target_width, pyInt], by norm_num [target_width, pyInt]⟩
  unfold upscale_image upscaleBody
  dsimp only
  simp only [hsz]
  rw [htw, hu]

/-- Claim C1 is false as stated: for original width W = 2 and scale factor
S = 4/5 the code computes width 1 by truncation while max(1, round(W*S))
is 2, and an upload oracle that reports its argument observes that the
width passed to the transform request is 1, not 2. -/
theorem target_width_not_round :
    target_width 2 (4/5) = 1 ∧ specTargetWidth 2 (4/5) = 2 ∧
    (upscale_image
        ⟨Except.ok (2, 1),
          fun w => Except.error (if w = 1 then "passed width one" else "passed another width"),
          fun _ _ => Except.error "unreached", Except.ok (), Except.ok (), Except.ok ()⟩
        "a.jpg" "ua.jpg" (4/5) 60 ⟨[], []⟩).1
      = (false, "passed width one") := by
  have h1 : target_width 2 (4/5) = 1 := by norm_num [target_width, pyInt]
  have h2 : specTargetWidth 2 (4/5) = 2 := by norm_num [specTargetWidth, round_eq]
  refine ⟨h1, h2, ?_⟩
  unfold upscale_image upscaleBody
  dsimp only
  rw [h1]
  norm_num

/-- Claim C2 is false as stated: the entry named x.Jpg carries a case
variant of the jpg extension, so the specification's case-insensitive
predicate admits it, but the code's exact-string filter rejects it and a
worker run over a listing holding only that entry enumerates zero
candidates. -/
theorem mixed_case_suffix_skipped :
    specCandidate ⟨"x.Jpg", ".Jpg", true⟩ = true ∧
    isCandidate ⟨"x.Jpg", ".Jpg", true⟩ = false ∧
    workerEvents [⟨"x.Jpg", ".Jpg", true⟩] "s" "o" 2
        (fun _ => ⟨Except.error "e", fun _ => Except.error "e",
          fun _ _ => Except.error "e", Except.error "e", Except.error "e",
          Except.error "e"⟩)
        (fun _ => false) ⟨[], []⟩
      = [Event.total 0, Event.done 0 0] := by
  refine ⟨by decide, by decide, rfl⟩

/-- Claim C6 is false as stated: a fault during the write step leaves a
truncated file at the final destination path, because the open already
truncated the file there before the write failed; the destination held no
file before the run and holds an empty file after it. -/
theorem write_fault_leaves_truncated_file :
    (upscale_image
        ⟨Except.ok (4, 3), fun _ => Except.ok ⟨some "u1", none⟩,
          fun _ _ => Except.ok ⟨200, [7, 8]⟩, Except.ok (), Except.ok (),
          Except.error "No space left on device"⟩
        "s/a.jpg" "o/ua.jpg" 2 60 ⟨[], []⟩).1
      = (false, "No space left on device") ∧
    FS.lookupFile
        (upscale_image
          ⟨Except.ok (4, 3), fun _ => Except.ok ⟨some "u1", none⟩,
            fun _ _ => Except.ok ⟨200, [7, 8]⟩, Except.ok (), Except.ok (),
            Except.error "No space left on device"⟩
          "s/a.jpg" "o/ua.jpg" 2 60 ⟨[], []⟩).2 "o/ua.jpg"
      = some [] ∧
    FS.lookupFile (⟨[], []⟩ : FS) "o/ua.jpg" = none := by
  refine ⟨rfl, rfl, rfl⟩

/-- Claim C7 is false as stated: a start whose API secret is empty and
whose output entry names no existing directory passes validation and the
job starts (the config is saved and the worker arguments are produced)
instead of being rejected. -/
theorem start_missing_secret_not_rejected :
    start_processing
        ⟨fun s => s == "src", fun s => if s == "2.0" then some 2 else none⟩
        ⟨"c", "k", "", "src", "out", "2.0", false⟩
      = StartOutcome.started ⟨"c", "k", ""⟩ ⟨"c", "k", ""⟩ ⟨"src", "out", 2⟩ := by
  rfl

theorem worker_complete_run_witness :
    countTotal (workerEvents demoListing "s" "o" 2 (fun _ => envStub)
        (fun _ => false) ⟨[], []⟩) = 1 ∧
    (workerEvents demoListing "s" "o" 2 (fun _ => envStub)
        (fun _ => false) ⟨[], []⟩).head?
      = some (Event.total (candidateCount demoListing)) ∧
    resultIndices (workerEvents demoListing "s" "o" 2 (fun _ => envStub)
        (fun _ => false) ⟨[], []⟩)
      = List.range' 1 (candidateCount demoListing) ∧
    countDone (workerEvents demoListing "s" "o" 2 (fun _ => envStub)
        (fun _ => false) ⟨[], []⟩) = 1 ∧
    countStopped (workerEvents demoListing "s" "o" 2 (fun _ => envStub)
        (fun _ => false) ⟨[], []⟩) = 0 ∧
    (workerEvents demoListing "s" "o" 2 (fun _ => envStub)
        (fun _ => false) ⟨[], []⟩).getLast?
      = some (Event.done
          (successCount (workerEvents demoListing "s" "o" 2 (fun _ => envStub)
            (fun _ => false) ⟨[], []⟩))
          (candidateCount demoListing)) ∧
    (candidateCount demoListing = 0 →
      workerEvents demoListing "s" "o" 2 (fun _ => envStub)
          (fun _ => false) ⟨[], []⟩
        = [Event.total 0, Event.done 0 0]) :=
  worker_complete_run demoListing "s" "o" 2 (fun _ => envStub)
    (fun _ => false) ⟨[], []⟩ (fun _ => rfl)

theorem worker_cancelled_run_witness :
    countResults (workerEvents demoListing "s" "o" 2 (fun _ => envStub)
        (fun i => i == 2) ⟨[], []⟩) = 2 - 1 ∧
    countStopped (workerEvents demoListing "s" "o" 2 (fun _ => envStub)
        (fun i => i == 2) ⟨[], []⟩) = 1 ∧
    countDone (workerEvents demoListing "s" "o" 2 (fun _ => envStub)
        (fun i => i == 2) ⟨[], []⟩) = 1 ∧
    (workerEvents demoListing "s" "o" 2 (fun _ => envStub)
        (fun i => i == 2) ⟨[], []⟩).getLast?
      = some (Event.done
          (successCount (workerEvents demoListing "s" "o" 2 (fun _ => envStub)
            (fun i => i == 2) ⟨[], []⟩))
          (candidateCount demoListing)) ∧
    ∃ pre, workerEvents demoListing "s" "o" 2 (fun _ => envStub)
          (fun i => i == 2) ⟨[], []⟩
        = pre ++ [Event.stopped "Processing stopped by user",
            Event.done
              (successCount (workerEvents demoListing "s" "o" 2 (fun _ => envStub)
                (fun i => i == 2) ⟨[], []⟩))
              (candidateCount demoListing)] ∧
      countStopped pre = 0 :=
  worker_cancelled_run demoListing "s" "o" 2 (fun _ => envStub)
    (fun i => i == 2) ⟨[], []⟩ 2 (by decide) (by decide) rfl
    (fun j h1 h2 => by
      have hj : j = 1 := by omega
      subst hj
      rfl)

theorem upload_width_truncates_witness :
    upscale_image { envOkU with upload := fun _ => Except.ok ⟨some "u1", none⟩ }
        "a" "b" (4/5) 60 ⟨[], []⟩
      = upscale_image envOkU "a" "b" (4/5) 60 ⟨[], []⟩ ∧
    target_width 2 (4/5) = max 1 ⌊((2 : Nat) : ℚ) * (4/5)⌋ ∧
    target_width 1000 2 = 2000 ∧
    target_width 3 (1/10) = 1 :=
  upload_width_truncates envOkU (fun _ => Except.ok ⟨some "u1", none⟩) 2 1
    "a" "b" (4/5) 60 ⟨[], []⟩ rfl (by norm_num) rfl

theorem fetch_failure_contract_witness :
    (∀ e, envOkU.httpGet "u1" 60 = Except.error e →
      upscale_image envOkU "a" "b" 2 60 ⟨[], []⟩ = ((false, e), ⟨[], []⟩)) ∧
    (∀ resp, envOkU.httpGet "u1" 60 = Except.ok resp → resp.status_code ≠ 200 →
      upscale_image envOkU "a" "b" 2 60 ⟨[], []⟩
        = ((false, "HTTP " ++ toString resp.status_code), ⟨[], []⟩)) ∧
    (∀ resp, envOkU.httpGet "u1" 60 = Except.ok resp → resp.status_code = 200 →
      envOkU.mkdirOk = Except.ok () →
      parentOf "b" ∈ (upscale_image envOkU "a" "b" 2 60 ⟨[], []⟩).2.dirs ∧
      (envOkU.openOk = Except.ok () → envOkU.writeOk = Except.ok () →
        upscale_image envOkU "a" "b" 2 60 ⟨[], []⟩
          = ((true, "OK"),
             FS.setFile (FS.addDir ⟨[], []⟩ (parentOf "b")) "b" resp.content))) :=
  fetch_failure_contract envOkU 2 1 ⟨some "u1", none⟩ "u1" "a" "b" 2 60 ⟨[], []⟩
    rfl rfl rfl

theorem upscale_preWrite_failure_frame_witness :
    ∃ m, upscale_image envStub "a" "b" 2 60 ⟨[], []⟩
      = ((false, m), (⟨[], []⟩ : FS)) :=
  upscale_preWrite_failure_frame envStub "a" "b" 2 60 ⟨[], []⟩ rfl
